import Mathlib

/-
Verification of the QSimpleCrypto AEAD / block-cipher drivers.

The repository drives an external OpenSSL EVP provider.  Following the
specification, the provider (the cipher transform itself) is an external
collaborator: it is embedded abstractly as a keystream function together
with a MAC function and acceptance flags, while the driver code of
QAead.cpp, AuthenticatedEncryption.cpp and QBlockCipher.cpp is translated
call by call.  GCM and CCM are stream-like constructions: a single update
call writes exactly as many output bytes as input bytes, the output being
the input combined byte-wise (xor) with a keystream determined by key and
nonce; the finalize step of an encryption writes no bytes, and the
finalize step of a decryption performs the authentication check against
the expected tag installed beforehand.  Each driver also records the
sequence of provider calls it performs, so that ordering properties can
be stated.
-/

namespace QSimpleCrypto

/-- Byte sequences (QByteArray contents); each element is one byte. -/
abbrev Bytes := List Nat

/-- Error taxonomy of the specification for failing driver steps. -/
inductive CryptoError where
  | providerInitError
  | keyOrNonceRejected
  | updateFailed
  | authenticationFailure
deriving DecidableEq

/-- Abstract EVP provider capability for one AEAD cipher (one EVP_CIPHER
together with the behaviour of contexts created for it).  The field ks
gives the keystream byte at an index for a key and nonce; macByte gives
byte number i of the authentication tag for key, nonce, fed aad, fed
data and configured tag length.  The Bool fields tell which parameters
the provider accepts and whether update / finalize calls succeed. -/
structure Evp where
  ks : Bytes → Bytes → Nat → Nat
  macByte : Bytes → Bytes → Bytes → Bytes → Nat → Nat → Nat
  initOk : Bytes → Bytes → Bool
  ivLenOk : Nat → Bool
  tagLenOk : Nat → Bool
  updateOk : Bool
  finalOk : Bool

/-- Byte-wise combination of a buffer with the keystream starting at a
given stream index: the single-update transform of a stream-like AEAD
mode (output length equals input length). -/
def xorStream (f : Nat → Nat) : Nat → Bytes → Bytes
  | _, [] => []
  | i, b :: rest => (b ^^^ f i) :: xorStream f (i + 1) rest

/-- The tag of the requested length extracted from (or checked by) the
provider: the first tl bytes of the ideal tag stream. -/
def tagBytes (c : Evp) (key iv aad ct : Bytes) (tl : Nat) : Bytes :=
  (List.range tl).map (c.macByte key iv aad ct tl)

/-- One provider call observable in a driver trace. -/
inductive Step where
  | init (key iv : Bytes)
  | setIvLen (n : Nat)
  | setTagLen (n : Nat)
  | setTagVal (tag : Bytes)
  | updateLen (n : Nat)
  | updateAad (aad : Bytes)
  | updateData (n : Nat)
  | final
  | getTag (n : Nat)
deriving DecidableEq

/-- One guarded provider call of the QAead drivers: the call t is issued;
if it succeeds the driver continues with rest, otherwise it throws e
(the C++ code throws std::runtime_error, ending the operation). -/
def step {A : Type} (t : Step) (ok : Bool) (e : CryptoError)
    (rest : List Step × Except CryptoError A) :
    List Step × Except CryptoError A :=
  if ok then (t :: rest.1, rest.2) else ([t], Except.error e)

namespace QAead

/-- Embedding of QSimpleCrypto QAead encryptAesGcm (QAead.cpp lines
25-90).  The C++ function allocates a ciphertext buffer of exactly
data.size() bytes, initializes the context, sets the IV length, feeds
the aad only when it is non-empty, feeds the whole plaintext in one
update (recording the written byte count in cipherTextLength), finalizes
(GCM writes no bytes there), extracts tag.length() tag bytes into the
caller's tag buffer, and returns the first cipherTextLength buffer
bytes.  The result is the pair of the returned ciphertext and the tag
buffer contents. -/
def encryptAesGcm (ctxOk : Bool) (data key iv tag aad : Bytes) (cipher : Evp) :
    List Step × Except CryptoError (Bytes × Bytes) :=
  let cipherText := xorStream (cipher.ks key iv) 0 data
  let aadFed := if aad.isEmpty then [] else aad
  let tail :=
    step (Step.updateData data.length) cipher.updateOk CryptoError.updateFailed (
    step Step.final cipher.finalOk CryptoError.updateFailed (
    step (Step.getTag tag.length) (cipher.tagLenOk tag.length) CryptoError.updateFailed
      ([], Except.ok (cipherText.take data.length,
        tagBytes cipher key iv aadFed cipherText tag.length))))
  if ctxOk = false then ([], Except.error CryptoError.providerInitError) else
  step (Step.init key iv) (cipher.initOk key iv) CryptoError.keyOrNonceRejected (
  step (Step.setIvLen iv.length) (cipher.ivLenOk iv.length) CryptoError.keyOrNonceRejected (
  if aad.isEmpty then tail else
    step (Step.updateAad aad) cipher.updateOk CryptoError.updateFailed tail))

/-- Embedding of QSimpleCrypto QAead decryptAesGcm (QAead.cpp lines
102-167).  Mirrors the C++ step for step: allocate a plaintext buffer of
data.size() bytes, init, set IV length, feed aad when non-empty, feed
the whole ciphertext in one update (count recorded in plainTextLength),
install the expected tag, and finalize; the finalize call performs the
authentication check and fails exactly when the tag of the fed aad and
data does not equal the installed tag.  On success the first
plainTextLength buffer bytes are returned. -/
def decryptAesGcm (ctxOk : Bool) (data key iv tag aad : Bytes) (cipher : Evp) :
    List Step × Except CryptoError Bytes :=
  let plainText := xorStream (cipher.ks key iv) 0 data
  let aadFed := if aad.isEmpty then [] else aad
  let tail :=
    step (Step.updateData data.length) cipher.updateOk CryptoError.updateFailed (
    step (Step.setTagVal tag) (cipher.tagLenOk tag.length) CryptoError.updateFailed (
    step Step.final (tagBytes cipher key iv aadFed data tag.length == tag)
      CryptoError.authenticationFailure
      ([], Except.ok (plainText.take data.length))))
  if ctxOk = false then ([], Except.error CryptoError.providerInitError) else
  step (Step.init key iv) (cipher.initOk key iv) CryptoError.keyOrNonceRejected (
  step (Step.setIvLen iv.length) (cipher.ivLenOk iv.length) CryptoError.keyOrNonceRejected (
  if aad.isEmpty then tail else
    step (Step.updateAad aad) cipher.updateOk CryptoError.updateFailed tail))

/-- Embedding of QSimpleCrypto QAead encryptAesCcm (QAead.cpp lines
179-254).  As the GCM variant, except that after setting the IV length
the driver also sets the tag length, and, when aad is non-empty, first
declares the total plaintext length with a sentinel update and then
feeds the aad, before the single data update, the finalize and the tag
extraction. -/
def encryptAesCcm (ctxOk : Bool) (data key iv tag aad : Bytes) (cipher : Evp) :
    List Step × Except CryptoError (Bytes × Bytes) :=
  let cipherText := xorStream (cipher.ks key iv) 0 data
  let aadFed := if aad.isEmpty then [] else aad
  let tail :=
    step (Step.updateData data.length) cipher.updateOk CryptoError.updateFailed (
    step Step.final cipher.finalOk CryptoError.updateFailed (
    step (Step.getTag tag.length) (cipher.tagLenOk tag.length) CryptoError.updateFailed
      ([], Except.ok (cipherText.take data.length,
        tagBytes cipher key iv aadFed cipherText tag.length))))
  if ctxOk = false then ([], Except.error CryptoError.providerInitError) else
  step (Step.init key iv) (cipher.initOk key iv) CryptoError.keyOrNonceRejected (
  step (Step.setIvLen iv.length) (cipher.ivLenOk iv.length) CryptoError.keyOrNonceRejected (
  step (Step.setTagLen tag.length) (cipher.tagLenOk tag.length) CryptoError.updateFailed (
  if aad.isEmpty then tail else
    step (Step.updateLen data.length) cipher.updateOk CryptoError.updateFailed (
    step (Step.updateAad aad) cipher.updateOk CryptoError.updateFailed tail))))

/-- Embedding of QSimpleCrypto QAead decryptAesCcm (QAead.cpp lines
266-336).  After init and IV length the driver installs the expected
tag (value and length), then, when aad is non-empty, declares the total
ciphertext length and feeds the aad, feeds the whole ciphertext in one
update, and finalizes; the finalize fails exactly when the tag of the
fed aad and data does not equal the installed tag. -/
def decryptAesCcm (ctxOk : Bool) (data key iv tag aad : Bytes) (cipher : Evp) :
    List Step × Except CryptoError Bytes :=
  let plainText := xorStream (cipher.ks key iv) 0 data
  let aadFed := if aad.isEmpty then [] else aad
  let tail :=
    step (Step.updateData data.length) cipher.updateOk CryptoError.updateFailed (
    step Step.final (tagBytes cipher key iv aadFed data tag.length == tag)
      CryptoError.authenticationFailure
      ([], Except.ok (plainText.take data.length)))
  if ctxOk = false then ([], Except.error CryptoError.providerInitError) else
  step (Step.init key iv) (cipher.initOk key iv) CryptoError.keyOrNonceRejected (
  step (Step.setIvLen iv.length) (cipher.ivLenOk iv.length) CryptoError.keyOrNonceRejected (
  step (Step.setTagVal tag) (cipher.tagLenOk tag.length) CryptoError.updateFailed (
  if aad.isEmpty then tail else
    step (Step.updateLen data.length) cipher.updateOk CryptoError.updateFailed (
    step (Step.updateAad aad) cipher.updateOk CryptoError.updateFailed tail))))

end QAead

namespace AuthenticatedEncryption

/-- Embedding of QSimpleCrypto AuthenticatedEncryption encrypt_aes_gcm
(AuthenticatedEncryption.cpp lines 25-100).  Same provider protocol as
the QAead GCM encryption, but every failing step makes the function
return the empty byte array instead of throwing.  The tag is written
through an out-pointer in the C++ code and is not part of the return
value, so only the returned ciphertext is modelled. -/
def encrypt_aes_gcm (ctxOk : Bool) (data key iv tag aad : Bytes) (cipher : Evp) : Bytes :=
  let ciphertext := xorStream (cipher.ks key iv) 0 data
  let tail : Bytes :=
    if cipher.updateOk = false then [] else
    if cipher.finalOk = false then [] else
    if cipher.tagLenOk tag.length = false then [] else
    ciphertext.take data.length
  if ctxOk = false then [] else
  if cipher.initOk key iv = false then [] else
  if cipher.ivLenOk iv.length = false then [] else
  if 0 < aad.length then (if cipher.updateOk = false then [] else tail) else tail

/-- Embedding of QSimpleCrypto AuthenticatedEncryption decrypt_aes_gcm
(AuthenticatedEncryption.cpp lines 112-185).  Same provider protocol as
the QAead GCM decryption; every failing step, the failing
authentication check included, makes the function return the empty byte
array. -/
def decrypt_aes_gcm (ctxOk : Bool) (data key iv tag aad : Bytes) (cipher : Evp) : Bytes :=
  let plainText := xorStream (cipher.ks key iv) 0 data
  let aadFed := if 0 < aad.length then aad else []
  let tail : Bytes :=
    if cipher.updateOk = false then [] else
    if cipher.tagLenOk tag.length = false then [] else
    if (tagBytes cipher key iv aadFed data tag.length == tag) = false then [] else
    plainText.take data.length
  if ctxOk = false then [] else
  if cipher.initOk key iv = false then [] else
  if cipher.ivLenOk iv.length = false then [] else
  if 0 < aad.length then (if cipher.updateOk = false then [] else tail) else tail

/-- Embedding of QSimpleCrypto AuthenticatedEncryption encrypt_aes_ccm
(AuthenticatedEncryption.cpp lines 197-284).  CCM ordering: init, set
IV length, set tag length, then, when aad is non-empty, the sentinel
length declaration and the aad update, then the single data update,
finalize and tag extraction; every failing step returns the empty byte
array. -/
def encrypt_aes_ccm (ctxOk : Bool) (data key iv tag aad : Bytes) (cipher : Evp) : Bytes :=
  let cipherText := xorStream (cipher.ks key iv) 0 data
  let tail : Bytes :=
    if cipher.updateOk = false then [] else
    if cipher.finalOk = false then [] else
    if cipher.tagLenOk tag.length = false then [] else
    cipherText.take data.length
  if ctxOk = false then [] else
  if cipher.initOk key iv = false then [] else
  if cipher.ivLenOk iv.length = false then [] else
  if cipher.tagLenOk tag.length = false then [] else
  if 0 < aad.length then (if cipher.updateOk = false then [] else tail) else tail

/-- Embedding of QSimpleCrypto AuthenticatedEncryption decrypt_aes_ccm
(AuthenticatedEncryption.cpp lines 296-375).  CCM ordering with the
expected tag installed before any data; the finalize authentication
check fails exactly when the tag of the fed aad and data does not equal
the installed tag, and every failing step returns the empty byte
array. -/
def decrypt_aes_ccm (ctxOk : Bool) (data key iv tag aad : Bytes) (cipher : Evp) : Bytes :=
  let plainText := xorStream (cipher.ks key iv) 0 data
  let aadFed := if 0 < aad.length then aad else []
  let tail : Bytes :=
    if cipher.updateOk = false then [] else
    if (tagBytes cipher key iv aadFed data tag.length == tag) = false then [] else
    plainText.take data.length
  if ctxOk = false then [] else
  if cipher.initOk key iv = false then [] else
  if cipher.ivLenOk iv.length = false then [] else
  if cipher.tagLenOk tag.length = false then [] else
  if 0 < aad.length then (if cipher.updateOk = false then [] else tail) else tail

end AuthenticatedEncryption

namespace QBlockCipher

/-- AES block size in bytes, as the AES_BLOCK_SIZE macro. -/
def AES_BLOCK_SIZE : Nat := 16

/-- Digest algorithm selector (the EVP_MD argument), abstract. -/
abbrev Md := Nat

/-- Abstract EVP provider capability for a password-based block cipher:
EVP_BytesToKey key derivation, and the update / finalize transform
behaviour (update on the whole input, then finalize emitting the
trailing padding bytes). -/
structure BlockEvp where
  bytesToKey : Md → Bytes → Bytes → Nat → Bytes × Bytes
  bytesToKeyOk : Bool
  initOk : Bytes → Bytes → Bool
  encUpdate : Bytes → Bytes → Bytes → Bytes
  encFinal : Bytes → Bytes → Bytes → Bytes
  decUpdate : Bytes → Bytes → Bytes → Bytes
  decFinal : Bytes → Bytes → Bytes → Bytes
  updateOk : Bool
  finalOk : Bool

/-- Writing a byte sequence into a buffer at an offset (the effect of a
provider call that stores its output at a pointer offset). -/
def writeAt (buf : Bytes) (off : Nat) (xs : Bytes) : Bytes :=
  buf.take off ++ xs ++ buf.drop (off + xs.length)

/-- Derived key and IV material: the call to EVP_BytesToKey shared by
encryptAesBlockCipher and decryptAesBlockCipher, a function of digest,
salt, password and rounds only. -/
def deriveKeyAndIv (cipher : BlockEvp) (md : Md) (salt password : Bytes)
    (rounds : Nat) : Bytes × Bytes :=
  cipher.bytesToKey md salt password rounds

/-- Embedding of QSimpleCrypto QBlockCipher generateSalt (QBlockCipher.cpp
lines 356-362).  The C++ code allocates a stack array of
sizeof(quint16) = 2 bytes, calls RAND_bytes for sizeof(size) = 2 bytes,
and then builds a QByteArray of the full requested size from that
2-byte array, reading past its end.  The argument rand models the
CSPRNG output stream, stack the adjacent stack memory read out of
bounds. -/
def generateSalt (rand stack : Nat → Nat) (size : Nat) : Bytes :=
  (List.range size).map (fun i => if i < 2 then rand i else stack i)

/-- Embedding of QSimpleCrypto QBlockCipher encryptAesBlockCipher
(QBlockCipher.cpp lines 376-431).  The output buffer is allocated with
data.size() + AES_BLOCK_SIZE bytes; EVP_BytesToKey overwrites the key
and iv buffers with the derived material before the init call, so the
incoming key and iv values are never read; the single update writes its
output at offset 0 and its byte count into cipherTextLength; the
finalize writes at offset cipherTextLength and its count into
finalLength; the first cipherTextLength + finalLength buffer bytes are
returned. -/
def encryptAesBlockCipher (ctxOk : Bool) (data key iv password salt : Bytes)
    (rounds : Nat) (cipher : BlockEvp) (md : Md) : Except CryptoError Bytes :=
  if ctxOk = false then Except.error CryptoError.providerInitError else
  if cipher.bytesToKeyOk = false then Except.error CryptoError.keyOrNonceRejected else
  let kv := deriveKeyAndIv cipher md salt password rounds
  if cipher.initOk kv.1 kv.2 = false then Except.error CryptoError.keyOrNonceRejected else
  if cipher.updateOk = false then Except.error CryptoError.updateFailed else
  let upd := cipher.encUpdate kv.1 kv.2 data
  if cipher.finalOk = false then Except.error CryptoError.updateFailed else
  let fin := cipher.encFinal kv.1 kv.2 data
  Except.ok ((writeAt (writeAt (List.replicate (data.length + AES_BLOCK_SIZE) 0) 0 upd)
    upd.length fin).take (upd.length + fin.length))

/-- Embedding of QSimpleCrypto QBlockCipher decryptAesBlockCipher
(QBlockCipher.cpp lines 445-503).  Same structure as the encryption:
buffer of data.size() + AES_BLOCK_SIZE bytes, derived key material
overwriting the key and iv buffers, update at offset 0, finalize at the
offset reported by the update, and a result of update count plus
finalize count bytes. -/
def decryptAesBlockCipher (ctxOk : Bool) (data key iv password salt : Bytes)
    (rounds : Nat) (cipher : BlockEvp) (md : Md) : Except CryptoError Bytes :=
  if ctxOk = false then Except.error CryptoError.providerInitError else
  if cipher.bytesToKeyOk = false then Except.error CryptoError.keyOrNonceRejected else
  let kv := deriveKeyAndIv cipher md salt password rounds
  if cipher.initOk kv.1 kv.2 = false then Except.error CryptoError.keyOrNonceRejected else
  if cipher.updateOk = false then Except.error CryptoError.updateFailed else
  let upd := cipher.decUpdate kv.1 kv.2 data
  if cipher.finalOk = false then Except.error CryptoError.updateFailed else
  let fin := cipher.decFinal kv.1 kv.2 data
  Except.ok ((writeAt (writeAt (List.replicate (data.length + AES_BLOCK_SIZE) 0) 0 upd)
    upd.length fin).take (upd.length + fin.length))

end QBlockCipher

/-- Flipping one bit of one byte of a byte sequence (bit b of byte i). -/
def flipBit (xs : Bytes) (i : Nat) (b : Nat) : Bytes :=
  xs.set i (xs.getD i 0 ^^^ 2 ^ b)

/-- Concrete provider instance used to evaluate the AEAD drivers on
concrete inputs: zero keystream and a sum-based tag that separates the
small inputs used in the evaluations. -/
def evpW : Evp where
  ks := fun _ _ _ => 0
  macByte := fun _ _ aad ct _ i =>
    (aad.foldr (fun a r => a + r) 0) * 100 + (ct.foldr (fun a r => a + r) 0) * 10 + i
  initOk := fun _ _ => true
  ivLenOk := fun _ => true
  tagLenOk := fun _ => true
  updateOk := true
  finalOk := true

/-- Concrete block-cipher provider instance used to evaluate the
password-based drivers on concrete inputs. -/
def blockEvpW : QBlockCipher.BlockEvp where
  bytesToKey := fun md salt password rounds => (salt ++ password ++ [md, rounds], [7])
  bytesToKeyOk := true
  initOk := fun _ _ => true
  encUpdate := fun _ _ data => data
  encFinal := fun _ _ _ => [1, 2]
  decUpdate := fun _ _ data => data
  decFinal := fun _ _ _ => [1, 2]
  updateOk := true
  finalOk := true

/-- The guarded call on a succeeding step keeps the continuation and
records the call. -/
@[simp] theorem step_true {A : Type} (t : Step) (e : CryptoError)
    (rest : List Step × Except CryptoError A) :
    step t true e rest = (t :: rest.1, rest.2) := rfl

/-- The guarded call on a failing step records the call and throws. -/
@[simp] theorem step_false {A : Type} (t : Step) (e : CryptoError)
    (rest : List Step × Except CryptoError A) :
    step t false e rest = ([t], Except.error e) := rfl

/-- Keystream combination preserves the buffer length. -/
@[simp] theorem xorStream_length (f : Nat → Nat) (i : Nat) (xs : Bytes) :
    (xorStream f i xs).length = xs.length := by
  induction xs generalizing i with
  | nil => rfl
  | cons b rest ih => simp [xorStream, ih]

/-- Keystream combination is an involution at any stream index. -/
theorem xorStream_xorStream (f : Nat → Nat) (i : Nat) (xs : Bytes) :
    xorStream f i (xorStream f i xs) = xs := by
  induction xs generalizing i with
  | nil => rfl
  | cons b rest ih => simp [xorStream, ih, Nat.xor_cancel_right]

/-- The extracted tag has exactly the configured length. -/
@[simp] theorem tagBytes_length (c : Evp) (key iv aad ct : Bytes) (tl : Nat) :
    (tagBytes c key iv aad ct tl).length = tl := by
  simp [tagBytes]

/-- Taking the full length of a keystream combination returns it whole. -/
@[simp] theorem xorStream_take (f : Nat → Nat) (i : Nat) (xs : Bytes) :
    (xorStream f i xs).take xs.length = xorStream f i xs := by
  rw [← xorStream_length f i xs, List.take_length]

@[simp] theorem flipBit_length (xs : Bytes) (i b : Nat) :
    (flipBit xs i b).length = xs.length := by
  simp [flipBit]

/-- Flipping a bit inside the sequence changes the sequence. -/
theorem flipBit_ne (xs : Bytes) (i b : Nat) (h : i < xs.length) :
    flipBit xs i b ≠ xs := by
  intro hc
  have hb : (2 : Nat) ^ b ≠ 0 := Nat.pos_iff_ne_zero.mp (Nat.pos_pow_of_pos b (by decide))
  have hlt : i < (xs.set i (xs.getD i 0 ^^^ 2 ^ b)).length := by simpa using h
  have h1 : (flipBit xs i b).getD i 0 = xs.getD i 0 ^^^ 2 ^ b := by
    rw [flipBit, List.getD_eq_getElem _ _ hlt, List.getElem_set_self]
  rw [hc] at h1
  have h4 := congrArg (fun x => xs.getD i 0 ^^^ x) h1.symm
  simp only [Nat.xor_cancel_left, Nat.xor_self] at h4
  exact hb h4

@[simp] theorem flipBit_nil (i b : Nat) : flipBit [] i b = [] := rfl

/-- Flipping a bit never changes whether the sequence is empty. -/
@[simp] theorem flipBit_isEmpty (xs : Bytes) (i b : Nat) :
    (flipBit xs i b).isEmpty = xs.isEmpty := by
  cases xs <;> cases i <;> simp [flipBit, List.set]

/-- A GCM decryption whose computed tag differs from the supplied tag
fails with an authentication failure. -/
theorem decryptAesGcm_authFail (data key iv tag aad : Bytes) (cipher : Evp)
    (h2 : cipher.initOk key iv = true) (h3 : cipher.ivLenOk iv.length = true)
    (h4 : cipher.tagLenOk tag.length = true) (h5 : cipher.updateOk = true)
    (hne : tagBytes cipher key iv (if aad.isEmpty then [] else aad) data tag.length ≠ tag) :
    (QAead.decryptAesGcm true data key iv tag aad cipher).2 =
      Except.error CryptoError.authenticationFailure := by
  have hbeq : (tagBytes cipher key iv (if aad.isEmpty then [] else aad) data tag.length
      == tag) = false := beq_eq_false_iff_ne.mpr hne
  cases haad : aad.isEmpty <;> simp [haad] at hbeq <;>
    simp [QAead.decryptAesGcm, haad, h2, h3, h4, h5, step, hbeq]

/-- The exception-free GCM decryption returns the empty array whenever
the computed tag differs from the supplied tag, on every path. -/
theorem decrypt_aes_gcm_empty (ctxOk : Bool) (data key iv tag aad : Bytes) (cipher : Evp)
    (hne : tagBytes cipher key iv (if 0 < aad.length then aad else []) data tag.length ≠ tag) :
    AuthenticatedEncryption.decrypt_aes_gcm ctxOk data key iv tag aad cipher = [] := by
  simp only [AuthenticatedEncryption.decrypt_aes_gcm]
  split_ifs <;> simp_all

/-- C1: For every valid key, nonce, plaintext and aad, AEAD decryption
applied to the ciphertext produced by AEAD encryption under the same
key, nonce and aad, supplying the tag produced by that encryption,
returns the original plaintext, for both the GCM and the CCM
operations. -/
theorem aead_roundtrip (ctxOk : Bool) (data key iv tag aad : Bytes) (cipher : Evp)
    (h1 : ctxOk = true) (h2 : cipher.initOk key iv = true)
    (h3 : cipher.ivLenOk iv.length = true) (h4 : cipher.tagLenOk tag.length = true)
    (h5 : cipher.updateOk = true) (h6 : cipher.finalOk = true) :
    (∀ ct tg, (QAead.encryptAesGcm ctxOk data key iv tag aad cipher).2 = Except.ok (ct, tg) →
      (QAead.decryptAesGcm ctxOk ct key iv tg aad cipher).2 = Except.ok data) ∧
    (∀ ct tg, (QAead.encryptAesCcm ctxOk data key iv tag aad cipher).2 = Except.ok (ct, tg) →
      (QAead.decryptAesCcm ctxOk ct key iv tg aad cipher).2 = Except.ok data) := by
  subst h1
  constructor
  · intro ct tg henc
    cases haad : aad.isEmpty <;>
      simp [QAead.encryptAesGcm, haad, h2, h3, h4, h5, h6, step] at henc <;>
      obtain ⟨hct, htg⟩ := henc <;>
      subst hct <;> subst htg <;>
      simp [QAead.decryptAesGcm, haad, h2, h3, h4, h5, step, xorStream_xorStream]
  · intro ct tg henc
    cases haad : aad.isEmpty <;>
      simp [QAead.encryptAesCcm, haad, h2, h3, h4, h5, h6, step] at henc <;>
      obtain ⟨hct, htg⟩ := henc <;>
      subst hct <;> subst htg <;>
      simp [QAead.decryptAesCcm, haad, h2, h3, h4, h5, step, xorStream_xorStream]

/-- Witness for C1: a concrete round trip through both drivers. -/
theorem aead_roundtrip_witness :
    (QAead.decryptAesGcm true [3] [1] [2] [530] [5] evpW).2 = Except.ok [3] ∧
    (QAead.decryptAesCcm true [3] [1] [2] [530] [5] evpW).2 = Except.ok [3] :=
  ⟨(aead_roundtrip true [3] [1] [2] [0] [5] evpW rfl rfl rfl rfl rfl rfl).1 [3] [530] rfl,
   (aead_roundtrip true [3] [1] [2] [0] [5] evpW rfl rfl rfl rfl rfl rfl).2 [3] [530] rfl⟩

/-- C2: For every valid encryption output, AEAD decryption performed
after flipping any single bit of the ciphertext, of the tag, or of the
aad signals an authentication failure and never returns a plaintext.
The provider is abstract, so for the ciphertext and aad cases the
hypothesis that the provider's tag distinguishes the tampered input
from the original output (what a real AEAD MAC supplies) is taken; the
driver is then shown to reach the failing authentication check and to
signal only an authentication failure, for the throwing QAead driver
and the empty-array AuthenticatedEncryption driver alike. -/
theorem aead_tamper_rejected (ctxOk : Bool) (data key iv tag aad ct tg : Bytes)
    (cipher : Evp) (i bi j bj m bm : Nat)
    (h1 : ctxOk = true) (h2 : cipher.initOk key iv = true)
    (h3 : cipher.ivLenOk iv.length = true) (h4 : cipher.tagLenOk tag.length = true)
    (h5 : cipher.updateOk = true) (h6 : cipher.finalOk = true)
    (henc : (QAead.encryptAesGcm ctxOk data key iv tag aad cipher).2 = Except.ok (ct, tg))
    (hj : j < tg.length) :
    (tagBytes cipher key iv (if aad.isEmpty then [] else aad) (flipBit ct i bi) tg.length ≠ tg →
      (QAead.decryptAesGcm ctxOk (flipBit ct i bi) key iv tg aad cipher).2 =
        Except.error CryptoError.authenticationFailure ∧
      AuthenticatedEncryption.decrypt_aes_gcm ctxOk (flipBit ct i bi) key iv tg aad cipher = []) ∧
    ((QAead.decryptAesGcm ctxOk ct key iv (flipBit tg j bj) aad cipher).2 =
        Except.error CryptoError.authenticationFailure ∧
      AuthenticatedEncryption.decrypt_aes_gcm ctxOk ct key iv (flipBit tg j bj) aad cipher = []) ∧
    (tagBytes cipher key iv (flipBit aad m bm) ct tg.length ≠ tg →
      (QAead.decryptAesGcm ctxOk ct key iv tg (flipBit aad m bm) cipher).2 =
        Except.error CryptoError.authenticationFailure ∧
      AuthenticatedEncryption.decrypt_aes_gcm ctxOk ct key iv tg (flipBit aad m bm) cipher = []) := by
  subst h1
  have htgne : flipBit tg j bj ≠ tg := flipBit_ne tg j bj hj
  cases haad : aad.isEmpty
  case false =>
    have hpos : 0 < aad.length := by
      cases aad with
      | nil => simp at haad
      | cons a as => simp
    simp [QAead.encryptAesGcm, haad, h2, h3, h4, h5, h6, step] at henc
    obtain ⟨hct, htg⟩ := henc
    subst hct
    have hlen : tg.length = tag.length := by rw [← htg]; simp
    refine ⟨fun hta => ⟨?_, ?_⟩, ⟨?_, ?_⟩, fun hma => ⟨?_, ?_⟩⟩
    · refine decryptAesGcm_authFail _ key iv tg aad cipher h2 h3 ?_ h5 ?_
      · simp [hlen, h4]
      · simpa [haad] using hta
    · refine decrypt_aes_gcm_empty true _ key iv tg aad cipher ?_
      simpa [haad, hpos] using hta
    · refine decryptAesGcm_authFail _ key iv (flipBit tg j bj) aad cipher h2 h3 ?_ h5 ?_
      · simp [hlen, h4]
      · simp [haad, hlen, htg]
        intro hcc
        exact htgne hcc.symm
    · refine decrypt_aes_gcm_empty true _ key iv (flipBit tg j bj) aad cipher ?_
      simp [hpos, hlen, htg]
      intro hcc
      exact htgne hcc.symm
    · refine decryptAesGcm_authFail _ key iv tg (flipBit aad m bm) cipher h2 h3 ?_ h5 ?_
      · simp [hlen, h4]
      · simpa [haad] using hma
    · refine decrypt_aes_gcm_empty true _ key iv tg (flipBit aad m bm) cipher ?_
      simpa [hpos] using hma
  case true =>
    rw [List.isEmpty_iff] at haad
    subst haad
    simp [QAead.encryptAesGcm, h2, h3, h4, h5, h6, step] at henc
    obtain ⟨hct, htg⟩ := henc
    subst hct
    have hlen : tg.length = tag.length := by rw [← htg]; simp
    refine ⟨fun hta => ⟨?_, ?_⟩, ⟨?_, ?_⟩, fun hma => ⟨?_, ?_⟩⟩
    · refine decryptAesGcm_authFail _ key iv tg [] cipher h2 h3 ?_ h5 ?_
      · simp [hlen, h4]
      · simpa using hta
    · refine decrypt_aes_gcm_empty true _ key iv tg [] cipher ?_
      simpa using hta
    · refine decryptAesGcm_authFail _ key iv (flipBit tg j bj) [] cipher h2 h3 ?_ h5 ?_
      · simp [hlen, h4]
      · simp [hlen, htg]
        intro hcc
        exact htgne hcc.symm
    · refine decrypt_aes_gcm_empty true _ key iv (flipBit tg j bj) [] cipher ?_
      simp [hlen, htg]
      intro hcc
      exact htgne hcc.symm
    · exact absurd (by simpa [hlen] using htg) (by simpa [hlen] using hma)
    · exact absurd (by simpa [hlen] using htg) (by simpa [hlen] using hma)

/-- Witness for C2: concrete tampered decryptions, each rejected. -/
theorem aead_tamper_rejected_witness :
    ((QAead.decryptAesGcm true (flipBit [3] 0 0) [1] [2] [530] [5] evpW).2 =
        Except.error CryptoError.authenticationFailure ∧
      AuthenticatedEncryption.decrypt_aes_gcm true (flipBit [3] 0 0) [1] [2] [530] [5] evpW = []) ∧
    ((QAead.decryptAesGcm true [3] [1] [2] (flipBit [530] 0 0) [5] evpW).2 =
        Except.error CryptoError.authenticationFailure ∧
      AuthenticatedEncryption.decrypt_aes_gcm true [3] [1] [2] (flipBit [530] 0 0) [5] evpW = []) ∧
    ((QAead.decryptAesGcm true [3] [1] [2] [530] (flipBit [5] 0 0) evpW).2 =
        Except.error CryptoError.authenticationFailure ∧
      AuthenticatedEncryption.decrypt_aes_gcm true [3] [1] [2] [530] (flipBit [5] 0 0) evpW = []) :=
  have h := aead_tamper_rejected true [3] [1] [2] [0] [5] [3] [530] evpW 0 0 0 0 0 0
    rfl rfl rfl rfl rfl rfl rfl (by decide)
  ⟨h.1 (by decide), h.2.1, h.2.2 (by decide)⟩

/-- C3: the claim that generateSalt returns a byte sequence of exactly
the requested length in which every byte is drawn from the
cryptographically secure random generator is violated by the code: the
C++ function fills only sizeof(quint16) = 2 bytes from RAND_bytes, so
for the requested size 16 the returned sequence does have length 16 but
every byte from index 2 on is read from adjacent stack memory and does
not depend on the CSPRNG stream at all. -/
theorem generateSalt_not_csprng (rand stack : Nat → Nat) :
    (QBlockCipher.generateSalt rand stack 16).length = 16 ∧
    (∀ i, 2 ≤ i → i < 16 →
      (QBlockCipher.generateSalt rand stack 16).getD i 0 = stack i) := by
  constructor
  · simp [QBlockCipher.generateSalt]
  · intro i h2 h16
    have hnot : ¬ i < 2 := by omega
    simp [QBlockCipher.generateSalt, List.getD_eq_getElem, h16, hnot]

/-- Witness for C3: on a concrete stream, byte 5 of the generated salt
is the adjacent stack byte, not CSPRNG output. -/
theorem generateSalt_not_csprng_witness :
    (QBlockCipher.generateSalt (fun i => i) (fun _ => 77) 16).getD 5 0 = 77 :=
  (generateSalt_not_csprng (fun i => i) (fun _ => 77)).2 5 (by decide) (by decide)

/-- C6: the claim that two independent generateSalt(16) calls collide
only with negligible probability is violated by the code: the output is
a function of only the first two CSPRNG bytes (the remaining 14 bytes
are whatever sits on the stack), so any two calls whose 2-byte random
prefixes coincide return the same salt; across 10000 trials such a
16-bit coincidence is expected hundreds of times. -/
theorem generateSalt_collision (r₁ r₂ stack : Nat → Nat)
    (h0 : r₁ 0 = r₂ 0) (h1 : r₁ 1 = r₂ 1) :
    QBlockCipher.generateSalt r₁ stack 16 = QBlockCipher.generateSalt r₂ stack 16 := by
  simp only [QBlockCipher.generateSalt]
  refine List.map_congr_left ?_
  intro i hi
  by_cases hlt : i < 2
  · interval_cases i <;> simp [h0, h1]
  · simp [hlt]

/-- Witness for C6: two CSPRNG streams that differ from index 2 on but
agree on the two bytes actually consumed produce identical salts. -/
theorem generateSalt_collision_witness :
    QBlockCipher.generateSalt (fun i => i) (fun _ => 9) 16 =
      QBlockCipher.generateSalt (fun i => if i < 2 then i else i + 100) (fun _ => 9) 16 :=
  generateSalt_collision (fun i => i) (fun i => if i < 2 then i else i + 100)
    (fun _ => 9) rfl rfl

/-- The two syntactic forms of the fed aad (empty test as isEmpty or as
a length comparison) agree. -/
theorem aadFed_eq (aad : Bytes) :
    (if aad.isEmpty then ([] : Bytes) else aad) = (if 0 < aad.length then aad else []) := by
  cases aad <;> simp

/-- Inversion of a successful QAead GCM decryption: a plaintext is
produced only when every step succeeded and the computed tag equals the
supplied tag. -/
theorem decryptAesGcm_ok_inv (ctxOk : Bool) (data key iv tag aad : Bytes) (cipher : Evp)
    (pt : Bytes) (hok : (QAead.decryptAesGcm ctxOk data key iv tag aad cipher).2 = Except.ok pt) :
    tagBytes cipher key iv (if aad.isEmpty then [] else aad) data tag.length = tag ∧
    ctxOk = true ∧ cipher.initOk key iv = true ∧ cipher.ivLenOk iv.length = true ∧
    cipher.tagLenOk tag.length = true ∧ cipher.updateOk = true := by
  simp only [QAead.decryptAesGcm, step] at hok
  split_ifs at hok <;> simp_all

/-- Inversion of a successful QAead CCM decryption. -/
theorem decryptAesCcm_ok_inv (ctxOk : Bool) (data key iv tag aad : Bytes) (cipher : Evp)
    (pt : Bytes) (hok : (QAead.decryptAesCcm ctxOk data key iv tag aad cipher).2 = Except.ok pt) :
    tagBytes cipher key iv (if aad.isEmpty then [] else aad) data tag.length = tag ∧
    ctxOk = true ∧ cipher.initOk key iv = true ∧ cipher.ivLenOk iv.length = true ∧
    cipher.tagLenOk tag.length = true ∧ cipher.updateOk = true := by
  simp only [QAead.decryptAesCcm, step] at hok
  split_ifs at hok <;> simp_all

/-- Inversion of a non-empty result of the exception-free GCM
decryption: every step succeeded and the tag matched. -/
theorem decrypt_aes_gcm_ne_inv (ctxOk : Bool) (data key iv tag aad : Bytes) (cipher : Evp)
    (hne : AuthenticatedEncryption.decrypt_aes_gcm ctxOk data key iv tag aad cipher ≠ []) :
    tagBytes cipher key iv (if 0 < aad.length then aad else []) data tag.length = tag ∧
    ctxOk = true ∧ cipher.initOk key iv = true ∧ cipher.ivLenOk iv.length = true ∧
    cipher.tagLenOk tag.length = true ∧ cipher.updateOk = true := by
  simp only [AuthenticatedEncryption.decrypt_aes_gcm] at hne
  split_ifs at hne <;> simp_all

/-- Inversion of a non-empty result of the exception-free CCM
decryption. -/
theorem decrypt_aes_ccm_ne_inv (ctxOk : Bool) (data key iv tag aad : Bytes) (cipher : Evp)
    (hne : AuthenticatedEncryption.decrypt_aes_ccm ctxOk data key iv tag aad cipher ≠ []) :
    tagBytes cipher key iv (if 0 < aad.length then aad else []) data tag.length = tag ∧
    ctxOk = true ∧ cipher.initOk key iv = true ∧ cipher.ivLenOk iv.length = true ∧
    cipher.tagLenOk tag.length = true ∧ cipher.updateOk = true := by
  simp only [AuthenticatedEncryption.decrypt_aes_ccm] at hne
  split_ifs at hne <;> simp_all

/-- Inversion of a non-empty result of the exception-free GCM
encryption: every step succeeded. -/
theorem encrypt_aes_gcm_ne_inv (ctxOk : Bool) (data key iv tag aad : Bytes) (cipher : Evp)
    (hne : AuthenticatedEncryption.encrypt_aes_gcm ctxOk data key iv tag aad cipher ≠ []) :
    ctxOk = true ∧ cipher.initOk key iv = true ∧ cipher.ivLenOk iv.length = true ∧
    cipher.updateOk = true ∧ cipher.finalOk = true ∧ cipher.tagLenOk tag.length = true := by
  simp only [AuthenticatedEncryption.encrypt_aes_gcm] at hne
  split_ifs at hne <;> simp_all

/-- Inversion of a non-empty result of the exception-free CCM
encryption. -/
theorem encrypt_aes_ccm_ne_inv (ctxOk : Bool) (data key iv tag aad : Bytes) (cipher : Evp)
    (hne : AuthenticatedEncryption.encrypt_aes_ccm ctxOk data key iv tag aad cipher ≠ []) :
    ctxOk = true ∧ cipher.initOk key iv = true ∧ cipher.ivLenOk iv.length = true ∧
    cipher.updateOk = true ∧ cipher.finalOk = true ∧ cipher.tagLenOk tag.length = true := by
  simp only [AuthenticatedEncryption.encrypt_aes_ccm] at hne
  split_ifs at hne <;> simp_all

/-- Inversion of a successful QAead GCM encryption: the produced
ciphertext and tag have their definitional shapes. -/
theorem encryptAesGcm_ok_inv (ctxOk : Bool) (data key iv tag aad : Bytes) (cipher : Evp)
    (ct tg : Bytes)
    (hok : (QAead.encryptAesGcm ctxOk data key iv tag aad cipher).2 = Except.ok (ct, tg)) :
    ct = xorStream (cipher.ks key iv) 0 data ∧
    tg = tagBytes cipher key iv (if aad.isEmpty then [] else aad)
      (xorStream (cipher.ks key iv) 0 data) tag.length := by
  simp only [QAead.encryptAesGcm, step] at hok
  split_ifs at hok <;> simp_all
  all_goals obtain ⟨ha, hb⟩ := hok
  all_goals subst ha
  all_goals exact hb.symm

/-- Inversion of a successful QAead CCM encryption. -/
theorem encryptAesCcm_ok_inv (ctxOk : Bool) (data key iv tag aad : Bytes) (cipher : Evp)
    (ct tg : Bytes)
    (hok : (QAead.encryptAesCcm ctxOk data key iv tag aad cipher).2 = Except.ok (ct, tg)) :
    ct = xorStream (cipher.ks key iv) 0 data ∧
    tg = tagBytes cipher key iv (if aad.isEmpty then [] else aad)
      (xorStream (cipher.ks key iv) 0 data) tag.length := by
  simp only [QAead.encryptAesCcm, step] at hok
  split_ifs at hok <;> simp_all
  all_goals obtain ⟨ha, hb⟩ := hok
  all_goals subst ha
  all_goals exact hb.symm

/-- The trailing finalize call of a decryption trace is recorded whether
or not the authentication check passes. -/
@[simp] theorem step_fst_last {A : Type} (t : Step) (ok : Bool) (e : CryptoError)
    (x : Except CryptoError A) : (step t ok e ([], x)).1 = [t] := by
  cases ok <;> rfl

/-- C4: if any step of an AEAD decryption fails, the authenticating
finalize step included, the operation returns no plaintext bytes: the
QAead drivers throw (no ok result exists) and the
AuthenticatedEncryption CCM driver returns the empty array, the
intermediate plaintext buffer being discarded. -/
theorem decrypt_no_partial_output (ctxOk : Bool) (data key iv tag aad : Bytes) (cipher : Evp)
    (h : tagBytes cipher key iv (if aad.isEmpty then [] else aad) data tag.length ≠ tag ∨
      ctxOk = false ∨ cipher.initOk key iv = false ∨ cipher.ivLenOk iv.length = false ∨
      cipher.tagLenOk tag.length = false ∨ cipher.updateOk = false) :
    (∀ pt, (QAead.decryptAesGcm ctxOk data key iv tag aad cipher).2 ≠ Except.ok pt) ∧
    (∀ pt, (QAead.decryptAesCcm ctxOk data key iv tag aad cipher).2 ≠ Except.ok pt) ∧
    AuthenticatedEncryption.decrypt_aes_gcm ctxOk data key iv tag aad cipher = [] ∧
    AuthenticatedEncryption.decrypt_aes_ccm ctxOk data key iv tag aad cipher = [] := by
  have contra : tagBytes cipher key iv (if aad.isEmpty then [] else aad) data tag.length = tag ∧
      ctxOk = true ∧ cipher.initOk key iv = true ∧ cipher.ivLenOk iv.length = true ∧
      cipher.tagLenOk tag.length = true ∧ cipher.updateOk = true → False := by
    rintro ⟨c1, c2, c3, c4, c5, c6⟩
    rcases h with h | h | h | h | h | h <;> simp_all
  refine ⟨fun pt hok => contra ?_, fun pt hok => contra ?_, ?_, ?_⟩
  · exact decryptAesGcm_ok_inv _ _ _ _ _ _ _ _ hok
  · exact decryptAesCcm_ok_inv _ _ _ _ _ _ _ _ hok
  · by_contra hne
    refine contra ?_
    have hinv := decrypt_aes_gcm_ne_inv _ _ _ _ _ _ _ hne
    rw [← aadFed_eq] at hinv
    exact hinv
  · by_contra hne
    refine contra ?_
    have hinv := decrypt_aes_ccm_ne_inv _ _ _ _ _ _ _ hne
    rw [← aadFed_eq] at hinv
    exact hinv

/-- Witness for C4: decrypting with a wrong tag yields no plaintext. -/
theorem decrypt_no_partial_output_witness :
    (QAead.decryptAesGcm true [3] [1] [2] [0] [5] evpW).2 ≠ Except.ok [9] ∧
    AuthenticatedEncryption.decrypt_aes_ccm true [3] [1] [2] [0] [5] evpW = [] :=
  have h := decrypt_no_partial_output true [3] [1] [2] [0] [5] evpW (Or.inl (by decide))
  ⟨h.1 [9], h.2.2.2⟩

/-- C5: every successful AEAD encryption (GCM or CCM) returns a
ciphertext whose length equals the byte count written by the single
data update, which equals the plaintext length for these stream modes,
together with a tag of exactly the caller-requested tag length (the
length of the caller's tag buffer). -/
theorem aead_encrypt_lengths (ctxOk : Bool) (data key iv tag aad : Bytes) (cipher : Evp) :
    (∀ ct tg, (QAead.encryptAesGcm ctxOk data key iv tag aad cipher).2 = Except.ok (ct, tg) →
      ct.length = data.length ∧ tg.length = tag.length) ∧
    (∀ ct tg, (QAead.encryptAesCcm ctxOk data key iv tag aad cipher).2 = Except.ok (ct, tg) →
      ct.length = data.length ∧ tg.length = tag.length) := by
  constructor
  · intro ct tg hok
    obtain ⟨hct, htg⟩ := encryptAesGcm_ok_inv _ _ _ _ _ _ _ _ _ hok
    subst hct
    subst htg
    simp
  · intro ct tg hok
    obtain ⟨hct, htg⟩ := encryptAesCcm_ok_inv _ _ _ _ _ _ _ _ _ hok
    subst hct
    subst htg
    simp

/-- Witness for C5: concrete output lengths of a successful encryption. -/
theorem aead_encrypt_lengths_witness :
    ([3] : Bytes).length = ([3] : Bytes).length ∧ ([530] : Bytes).length = ([0] : Bytes).length :=
  (aead_encrypt_lengths true [3] [1] [2] [0] [5] evpW).1 [3] [530] rfl

/-- C7: in every CCM encryption and decryption the provider calls occur
in the order context init, set nonce length, set tag length, then, only
when aad is non-empty, the sentinel total-length update followed by the
aad update, then the single data update, then finalize (the encryption
additionally extracts the tag after finalizing); in particular nonce
and tag length are always set before any aad or message data and the
length declaration precedes the aad. -/
theorem ccm_call_order (ctxOk : Bool) (data key iv tag aad : Bytes) (cipher : Evp)
    (h1 : ctxOk = true) (h2 : cipher.initOk key iv = true)
    (h3 : cipher.ivLenOk iv.length = true) (h4 : cipher.tagLenOk tag.length = true)
    (h5 : cipher.updateOk = true) (h6 : cipher.finalOk = true) :
    (aad.isEmpty = false →
      (QAead.encryptAesCcm ctxOk data key iv tag aad cipher).1 =
        [Step.init key iv, Step.setIvLen iv.length, Step.setTagLen tag.length,
          Step.updateLen data.length, Step.updateAad aad, Step.updateData data.length,
          Step.final, Step.getTag tag.length] ∧
      (QAead.decryptAesCcm ctxOk data key iv tag aad cipher).1 =
        [Step.init key iv, Step.setIvLen iv.length, Step.setTagVal tag,
          Step.updateLen data.length, Step.updateAad aad, Step.updateData data.length,
          Step.final]) ∧
    (aad.isEmpty = true →
      (QAead.encryptAesCcm ctxOk data key iv tag aad cipher).1 =
        [Step.init key iv, Step.setIvLen iv.length, Step.setTagLen tag.length,
          Step.updateData data.length, Step.final, Step.getTag tag.length] ∧
      (QAead.decryptAesCcm ctxOk data key iv tag aad cipher).1 =
        [Step.init key iv, Step.setIvLen iv.length, Step.setTagVal tag,
          Step.updateData data.length, Step.final]) := by
  subst h1
  constructor
  · intro haad
    constructor
    · simp [QAead.encryptAesCcm, haad, h2, h3, h4, h5, h6, step]
    · simp [QAead.decryptAesCcm, haad, h2, h3, h4, h5]
  · intro haad
    constructor
    · simp [QAead.encryptAesCcm, haad, h2, h3, h4, h5, h6, step]
    · simp [QAead.decryptAesCcm, haad, h2, h3, h4, h5]

/-- Witness for C7: concrete CCM call traces, with and without aad. -/
theorem ccm_call_order_witness :
    (QAead.encryptAesCcm true [3] [1] [2] [0] [5] evpW).1 =
      [Step.init [1] [2], Step.setIvLen 1, Step.setTagLen 1, Step.updateLen 1,
        Step.updateAad [5], Step.updateData 1, Step.final, Step.getTag 1] ∧
    (QAead.decryptAesCcm true [3] [1] [2] [0] [] evpW).1 =
      [Step.init [1] [2], Step.setIvLen 1, Step.setTagVal [0], Step.updateData 1, Step.final] :=
  ⟨((ccm_call_order true [3] [1] [2] [0] [5] evpW rfl rfl rfl rfl rfl rfl).1 rfl).1,
   ((ccm_call_order true [3] [1] [2] [0] [] evpW rfl rfl rfl rfl rfl rfl).2 rfl).2⟩

/-- The buffer contents of a block-cipher operation: the update output
written at offset 0 and the finalize output written at the offset
reported by the update, truncated to the reported total byte count,
yield exactly the update output followed by the finalize output. -/
theorem writeAt_result (n : Nat) (upd fin : Bytes) :
    ((QBlockCipher.writeAt (QBlockCipher.writeAt (List.replicate n (0 : Nat)) 0 upd)
      upd.length fin).take (upd.length + fin.length)) = upd ++ fin := by
  simp only [QBlockCipher.writeAt, List.take_zero, List.nil_append, Nat.zero_add]
  rw [List.take_left]
  rw [List.take_append_eq_append_take]
  rw [List.take_of_length_le (by simp)]
  simp [List.length_append]

/-- C8: every block-cipher encryption and decryption allocates its
output buffer with capacity input length plus one AES block, has the
finalize step write at the offset reported by the update step, and
returns a byte sequence whose length is the update byte count plus the
finalize byte count, so a provider padding emission of up to one block
(update writing at most the input length, finalize at most one block)
never writes past the end of the buffer. -/
theorem blockCipher_buffer (ctxOk : Bool) (data key iv password salt : Bytes)
    (rounds : Nat) (cipher : QBlockCipher.BlockEvp) (md : QBlockCipher.Md)
    (k1 k2 upd fin upd' fin' : Bytes)
    (hkv : QBlockCipher.deriveKeyAndIv cipher md salt password rounds = (k1, k2))
    (hupd : cipher.encUpdate k1 k2 data = upd) (hfin : cipher.encFinal k1 k2 data = fin)
    (hupd' : cipher.decUpdate k1 k2 data = upd') (hfin' : cipher.decFinal k1 k2 data = fin')
    (h1 : ctxOk = true) (h2 : cipher.bytesToKeyOk = true) (h3 : cipher.initOk k1 k2 = true)
    (h5 : cipher.updateOk = true) (h6 : cipher.finalOk = true)
    (hu : upd.length ≤ data.length) (hf : fin.length ≤ QBlockCipher.AES_BLOCK_SIZE)
    (hu' : upd'.length ≤ data.length) (hf' : fin'.length ≤ QBlockCipher.AES_BLOCK_SIZE) :
    QBlockCipher.encryptAesBlockCipher ctxOk data key iv password salt rounds cipher md =
      Except.ok (upd ++ fin) ∧
    (upd ++ fin).length = upd.length + fin.length ∧
    upd.length + fin.length ≤
      (List.replicate (data.length + QBlockCipher.AES_BLOCK_SIZE) (0 : Nat)).length ∧
    QBlockCipher.decryptAesBlockCipher ctxOk data key iv password salt rounds cipher md =
      Except.ok (upd' ++ fin') ∧
    (upd' ++ fin').length = upd'.length + fin'.length ∧
    upd'.length + fin'.length ≤
      (List.replicate (data.length + QBlockCipher.AES_BLOCK_SIZE) (0 : Nat)).length := by
  subst h1
  refine ⟨?_, by simp, by simpa using Nat.add_le_add hu hf, ?_, by simp,
    by simpa using Nat.add_le_add hu' hf'⟩
  · simp [QBlockCipher.encryptAesBlockCipher, h2, h3, h5, h6, hkv, hupd, hfin, writeAt_result]
  · simp [QBlockCipher.decryptAesBlockCipher, h2, h3, h5, h6, hkv, hupd', hfin', writeAt_result]

/-- Witness for C8: concrete block-cipher runs with a one-block pad. -/
theorem blockCipher_buffer_witness :
    QBlockCipher.encryptAesBlockCipher true [10, 11] [] [] [8] [9] 3 blockEvpW 2 =
      Except.ok [10, 11, 1, 2] ∧
    QBlockCipher.decryptAesBlockCipher true [10, 11] [] [] [8] [9] 3 blockEvpW 2 =
      Except.ok [10, 11, 1, 2] :=
  have h := blockCipher_buffer true [10, 11] [] [] [8] [9] 3 blockEvpW 2
    [9, 8, 2, 3] [7] [10, 11] [1, 2] [10, 11] [1, 2] rfl rfl rfl rfl rfl rfl rfl rfl rfl rfl
    (by decide) (by decide) (by decide) (by decide)
  ⟨h.1, h.2.2.2.1⟩

/-- C9: password-based key derivation is deterministic and depends only
on password, salt, rounds, cipher and digest: the key and iv arguments
are overwritten by the derived material before use, so two runs that
agree on data, password, salt, rounds, cipher and digest produce
identical output whatever key and iv buffers they pass. -/
theorem blockCipher_kdf_deterministic (ctxOk : Bool)
    (data key₁ iv₁ key₂ iv₂ password salt : Bytes)
    (rounds : Nat) (cipher : QBlockCipher.BlockEvp) (md : QBlockCipher.Md) :
    QBlockCipher.deriveKeyAndIv cipher md salt password rounds =
      QBlockCipher.deriveKeyAndIv cipher md salt password rounds ∧
    QBlockCipher.encryptAesBlockCipher ctxOk data key₁ iv₁ password salt rounds cipher md =
      QBlockCipher.encryptAesBlockCipher ctxOk data key₂ iv₂ password salt rounds cipher md ∧
    QBlockCipher.decryptAesBlockCipher ctxOk data key₁ iv₁ password salt rounds cipher md =
      QBlockCipher.decryptAesBlockCipher ctxOk data key₂ iv₂ password salt rounds cipher md :=
  ⟨rfl, rfl, rfl⟩

/-- C10: in the AuthenticatedEncryption operations every failure path
returns the empty byte array (a non-empty return forces every step to
have succeeded), which is also the value a successful call returns for
an empty message, so the return value alone cannot distinguish failure
from success on empty input. -/
theorem ae_failure_returns_empty (ctxOk : Bool) (data key iv tag aad : Bytes) (cipher : Evp) :
    (AuthenticatedEncryption.encrypt_aes_gcm ctxOk data key iv tag aad cipher ≠ [] →
      ctxOk = true ∧ cipher.initOk key iv = true ∧ cipher.ivLenOk iv.length = true ∧
      cipher.updateOk = true ∧ cipher.finalOk = true ∧ cipher.tagLenOk tag.length = true) ∧
    (AuthenticatedEncryption.decrypt_aes_gcm ctxOk data key iv tag aad cipher ≠ [] →
      tagBytes cipher key iv (if 0 < aad.length then aad else []) data tag.length = tag ∧
      ctxOk = true ∧ cipher.initOk key iv = true ∧ cipher.ivLenOk iv.length = true ∧
      cipher.tagLenOk tag.length = true ∧ cipher.updateOk = true) ∧
    (AuthenticatedEncryption.encrypt_aes_ccm ctxOk data key iv tag aad cipher ≠ [] →
      ctxOk = true ∧ cipher.initOk key iv = true ∧ cipher.ivLenOk iv.length = true ∧
      cipher.updateOk = true ∧ cipher.finalOk = true ∧ cipher.tagLenOk tag.length = true) ∧
    (AuthenticatedEncryption.decrypt_aes_ccm ctxOk data key iv tag aad cipher ≠ [] →
      tagBytes cipher key iv (if 0 < aad.length then aad else []) data tag.length = tag ∧
      ctxOk = true ∧ cipher.initOk key iv = true ∧ cipher.ivLenOk iv.length = true ∧
      cipher.tagLenOk tag.length = true ∧ cipher.updateOk = true) ∧
    AuthenticatedEncryption.encrypt_aes_gcm ctxOk [] key iv tag aad cipher = [] ∧
    AuthenticatedEncryption.decrypt_aes_gcm ctxOk [] key iv tag aad cipher = [] ∧
    AuthenticatedEncryption.encrypt_aes_ccm ctxOk [] key iv tag aad cipher = [] ∧
    AuthenticatedEncryption.decrypt_aes_ccm ctxOk [] key iv tag aad cipher = [] := by
  refine ⟨fun hne => encrypt_aes_gcm_ne_inv _ _ _ _ _ _ _ hne,
    fun hne => decrypt_aes_gcm_ne_inv _ _ _ _ _ _ _ hne,
    fun hne => encrypt_aes_ccm_ne_inv _ _ _ _ _ _ _ hne,
    fun hne => decrypt_aes_ccm_ne_inv _ _ _ _ _ _ _ hne, ?_, ?_, ?_, ?_⟩
  · simp [AuthenticatedEncryption.encrypt_aes_gcm, xorStream]
  · simp [AuthenticatedEncryption.decrypt_aes_gcm, xorStream]
  · simp [AuthenticatedEncryption.encrypt_aes_ccm, xorStream]
  · simp [AuthenticatedEncryption.decrypt_aes_ccm, xorStream]

/-- Witness for C10: a failing call and an empty-input success both
return the empty array. -/
theorem ae_failure_returns_empty_witness :
    AuthenticatedEncryption.encrypt_aes_gcm true [] [1] [2] [0] [5] evpW = [] ∧
    AuthenticatedEncryption.encrypt_aes_gcm false [3] [1] [2] [0] [5] evpW = [] :=
  ⟨(ae_failure_returns_empty true [] [1] [2] [0] [5] evpW).2.2.2.2.1, by
    by_contra hne
    have h := (ae_failure_returns_empty false [3] [1] [2] [0] [5] evpW).1 hne
    exact absurd h.1 (by decide)⟩

end QSimpleCrypto
